import Mathlib

/-
  Verification development for the RTA-Analysis-Toolkit numerical core.

  The TypeScript sources embedded here:
    - src/app/utils/numerical.utils.ts            (numerical kernel)
    - src/app/services/blasingame-calculation.service.ts
    - src/app/services/type-curve-matching.service.ts

  JavaScript numbers are modelled by `JSNum`: an idealized IEEE double with
  NaN and the two infinities, but exact rational arithmetic for finite
  values (no rounding, no overflow, and -0 conflated with +0).  An
  out-of-range array access (JS `undefined`) behaves like NaN in every
  arithmetic operation and comparison used by this code, so `jsIdx` returns
  `JSNum.nan` out of range.  Transcendental functions (Math.log, Math.log10,
  Math.exp, Math.sqrt) are taken as parameters of the definitions that use
  them; every theorem below holds for an arbitrary interpretation of those
  parameters.
-/

namespace RTA

/-- Model of a JavaScript number: NaN, +Infinity, -Infinity, or a finite
value represented exactly as a rational. -/
inductive JSNum where
  | nan : JSNum
  | inf : JSNum
  | neginf : JSNum
  | fin (q : ℚ) : JSNum
deriving DecidableEq

/-- JS `isFinite`. -/
def jsIsFinite : JSNum → Bool
  | .fin _ => true
  | _ => false

/-- JS `a > b` (false whenever either side is NaN). -/
def jsGt : JSNum → JSNum → Bool
  | .nan, _ => false
  | _, .nan => false
  | .inf, .inf => false
  | .inf, _ => true
  | .neginf, _ => false
  | .fin _, .inf => false
  | .fin _, .neginf => true
  | .fin a, .fin b => decide (b < a)

/-- JS `a >= b` (false whenever either side is NaN). -/
def jsGe : JSNum → JSNum → Bool
  | .nan, _ => false
  | _, .nan => false
  | .inf, _ => true
  | .neginf, .neginf => true
  | .neginf, _ => false
  | .fin _, .inf => false
  | .fin _, .neginf => true
  | .fin a, .fin b => decide (b ≤ a)

/-- JS `a <= b`. -/
def jsLe (a b : JSNum) : Bool := jsGe b a

/-- JS addition. -/
def jsAdd : JSNum → JSNum → JSNum
  | .nan, _ => .nan
  | _, .nan => .nan
  | .inf, .neginf => .nan
  | .neginf, .inf => .nan
  | .inf, _ => .inf
  | _, .inf => .inf
  | .neginf, _ => .neginf
  | _, .neginf => .neginf
  | .fin a, .fin b => .fin (a + b)

/-- JS subtraction. -/
def jsSub : JSNum → JSNum → JSNum
  | .nan, _ => .nan
  | _, .nan => .nan
  | .inf, .inf => .nan
  | .neginf, .neginf => .nan
  | .inf, _ => .inf
  | .neginf, _ => .neginf
  | _, .inf => .neginf
  | _, .neginf => .inf
  | .fin a, .fin b => .fin (a - b)

/-- JS multiplication (`Infinity * 0` is NaN). -/
def jsMul : JSNum → JSNum → JSNum
  | .nan, _ => .nan
  | _, .nan => .nan
  | .inf, .inf => .inf
  | .inf, .neginf => .neginf
  | .neginf, .inf => .neginf
  | .neginf, .neginf => .inf
  | .inf, .fin b => if 0 < b then .inf else if b < 0 then .neginf else .nan
  | .neginf, .fin b => if 0 < b then .neginf else if b < 0 then .inf else .nan
  | .fin a, .inf => if 0 < a then .inf else if a < 0 then .neginf else .nan
  | .fin a, .neginf => if 0 < a then .neginf else if a < 0 then .inf else .nan
  | .fin a, .fin b => .fin (a * b)

/-- JS division (`x/0` follows the sign of x with +0 as divisor, `0/0` is
NaN, `Infinity/Infinity` is NaN, finite over infinite is 0). -/
def jsDiv : JSNum → JSNum → JSNum
  | .nan, _ => .nan
  | _, .nan => .nan
  | .inf, .inf => .nan
  | .inf, .neginf => .nan
  | .neginf, .inf => .nan
  | .neginf, .neginf => .nan
  | .inf, .fin b => if b < 0 then .neginf else .inf
  | .neginf, .fin b => if b < 0 then .inf else .neginf
  | .fin _, .inf => .fin 0
  | .fin _, .neginf => .fin 0
  | .fin a, .fin b =>
      if b = 0 then (if 0 < a then .inf else if a < 0 then .neginf else .nan)
      else .fin (a / b)

/-- JS `Math.min` (NaN absorbing). -/
def jsMin : JSNum → JSNum → JSNum
  | .nan, _ => .nan
  | _, .nan => .nan
  | a, b => if jsLe a b then a else b

/-- JS `Math.max` (NaN absorbing). -/
def jsMax : JSNum → JSNum → JSNum
  | .nan, _ => .nan
  | _, .nan => .nan
  | a, b => if jsGe a b then a else b

/-- JS array indexing `arr[i]`: out of range yields `undefined`, which
behaves as NaN in all arithmetic and comparisons that consume it here. -/
def jsIdx : List JSNum → Nat → JSNum
  | [], _ => .nan
  | v :: _, 0 => v
  | _ :: l, n + 1 => jsIdx l n

/-- JS array indexing with a possibly negative index (a negative index is a
plain property access, yielding `undefined`, i.e. NaN here). -/
def jsIdxInt (l : List JSNum) (i : Int) : JSNum :=
  if 0 ≤ i then jsIdx l i.toNat else .nan

/- ------------------------------------------------------------------
   numerical.utils.ts
   ------------------------------------------------------------------ -/

/-- `datesToDays` from numerical.utils.ts: elapsed days since the first
date.  Dates are modelled by their `getTime()` millisecond value. -/
def datesToDays : List ℚ → List JSNum
  | [] => []
  | d0 :: rest => (d0 :: rest).map (fun d => .fin ((d - d0) / 86400000))

/-- Loop of `trapezoidalIntegrate`: `integral[i] = integral[i-1] + avgY*dx`
for `i` from 1, carrying the previous accumulated value; `rem` counts the
remaining iterations. -/
def trapAux (x y : List JSNum) : Nat → Nat → JSNum → List JSNum
  | 0, _, _ => []
  | rem + 1, i, prev =>
      let dx := jsSub (jsIdx x i) (jsIdx x (i - 1))
      let avgY := jsDiv (jsAdd (jsIdx y i) (jsIdx y (i - 1))) (.fin 2)
      let v := jsAdd prev (jsMul avgY dx)
      v :: trapAux x y rem (i + 1) v

/-- `trapezoidalIntegrate` from numerical.utils.ts.  The source assigns
`integral[0] = 0` unconditionally on a fresh `new Array()`, so the output
always has at least one element (length `max n 1`). -/
def trapezoidalIntegrate (x y : List JSNum) : List JSNum :=
  .fin 0 :: trapAux x y (x.length - 1) 1 (.fin 0)

/-- `movingAverage` from numerical.utils.ts: centered window of half-width
`floor(windowSize/2)` clipped to `[0, n-1]`. -/
def movingAverage (data : List JSNum) (windowSize : Nat) : List JSNum :=
  let n := data.length
  let halfWindow := windowSize / 2
  (List.range n).map (fun i =>
    let start := i - halfWindow
    let stop := min (n - 1) (i + halfWindow)
    let count := stop + 1 - start
    let sum := ((List.range count).map (fun k => jsIdx data (start + k))).foldl jsAdd (.fin 0)
    jsDiv sum (.fin count))

/-- `logarithmicDerivative` from numerical.utils.ts, parameterized by the
interpretation `jln` of `Math.log`.  JS array-write semantics: index 0 is
always assigned (growing an empty array to length 1), and for `n = 1` the
final backward-difference write overwrites index 0 with a value built from
the out-of-range access `x[-1]` (NaN). -/
def logarithmicDerivative (jln : JSNum → JSNum) (x y : List JSNum) : List JSNum :=
  let n := x.length
  let fwd := jsDiv (jsSub (jsIdx y 1) (jsIdx y 0)) (jln (jsDiv (jsIdx x 1) (jsIdx x 0)))
  let bwd := jsDiv (jsSub (jsIdxInt y ((n : Int) - 1)) (jsIdxInt y ((n : Int) - 2)))
      (jln (jsDiv (jsIdxInt x ((n : Int) - 1)) (jsIdxInt x ((n : Int) - 2))))
  if n = 0 then [fwd]
  else (List.range n).map (fun i =>
    if i = 0 then (if n = 1 then bwd else fwd)
    else if i = n - 1 then bwd
    else jsDiv (jsSub (jsIdx y (i + 1)) (jsIdx y (i - 1)))
        (jln (jsDiv (jsIdx x (i + 1)) (jsIdx x (i - 1)))))

/- ------------------------------------------------------------------
   blasingame-calculation.service.ts
   ------------------------------------------------------------------ -/

/-- The fields of `BlasingameInput` read by `calculate` (the remaining
static well properties are never used by the service). -/
structure BlasingameInput where
  dates : List ℚ
  rates : List JSNum
  cumulativeProduction : List JSNum
  pressures : Option (List JSNum)
  initialPressure : JSNum

/-- `BlasingameOutput` from blasingame.model.ts. -/
structure BlasingameOutput where
  teDimensionless : List JSNum
  materialBalanceTime : List JSNum
  qDd : List JSNum
  qDdi : List JSNum
  qDdid : List JSNum
  pressureDrops : List JSNum
  times : List JSNum
  rates : List JSNum

/-- Loop of `calculateMaterialBalanceTime`, carrying `te[i-1]` (seeded with
the `0.001` used when the rate at index 0 is not positive). -/
def mbtAux (rates cumulative : List JSNum) : Nat → Nat → JSNum → List JSNum
  | 0, _, _ => []
  | rem + 1, i, prev =>
      let v := if jsGt (jsIdx rates i) (.fin 0)
        then jsDiv (jsIdx cumulative i) (jsIdx rates i)
        else prev
      v :: mbtAux rates cumulative rem (i + 1) v

/-- `calculateMaterialBalanceTime`: `te[i] = cumulative[i]/rates[i]` when
`rates[i] > 0`, otherwise `te[i-1]` (or `0.001` at index 0). -/
def calculateMaterialBalanceTime (rates cumulative : List JSNum) : List JSNum :=
  mbtAux rates cumulative rates.length 0 (.fin (1 / 1000))

/-- `calculatePressureDrops`: with a pressure series of matching length,
each drop is `initialPressure - p` when that difference is positive and
`100` otherwise; with an absent or length-mismatched series, the constant
estimate `initialPressure * 0.35`. -/
def calculatePressureDrops
    (pressures : Option (List JSNum)) (initialPressure : JSNum) (dataLength : Nat) :
    List JSNum :=
  match pressures with
  | some ps =>
      if ps.length = dataLength then
        ps.map (fun p =>
          let dp := jsSub initialPressure p
          if jsGt dp (.fin 0) then dp else .fin 100)
      else List.replicate dataLength (jsMul initialPressure (.fin (35 / 100)))
  | none => List.replicate dataLength (jsMul initialPressure (.fin (35 / 100)))

/-- `calculateNormalizedRate`: `qDd[i] = rates[i] / pressureDrops[i]`. -/
def calculateNormalizedRate (rates pressureDrops : List JSNum) : List JSNum :=
  (List.range rates.length).map (fun i => jsDiv (jsIdx rates i) (jsIdx pressureDrops i))

/-- `calculateRateIntegral`: trapezoidal integral of `qDd` over `te`,
divided pointwise by `te[i]` (0 where `te[i]` is not positive). -/
def calculateRateIntegral (materialBalanceTime qDd : List JSNum) : List JSNum :=
  let integral := trapezoidalIntegrate materialBalanceTime qDd
  (List.range integral.length).map (fun i =>
    let te := jsIdx materialBalanceTime i
    if jsGt te (.fin 0) then jsDiv (jsIdx integral i) te else .fin 0)

/-- `calculateRateIntegralDerivative`: moving average (window 5) then
logarithmic derivative. -/
def calculateRateIntegralDerivative (jln : JSNum → JSNum)
    (materialBalanceTime qDdi : List JSNum) : List JSNum :=
  logarithmicDerivative jln materialBalanceTime (movingAverage qDdi 5)

/-- Result record of `cleanData`. -/
structure CleanedArrays where
  materialBalanceTime : List JSNum
  qDd : List JSNum
  qDdi : List JSNum
  qDdid : List JSNum

/-- The `valid` index list built by `cleanData`: indices below the length
of `materialBalanceTime` at which all four arrays hold finite, strictly
positive values. -/
def validIndices (mbt qDd qDdi qDdid : List JSNum) : List Nat :=
  (List.range mbt.length).filter (fun i =>
    jsIsFinite (jsIdx mbt i) && jsIsFinite (jsIdx qDd i) &&
    jsIsFinite (jsIdx qDdi i) && jsIsFinite (jsIdx qDdid i) &&
    jsGt (jsIdx mbt i) (.fin 0) && jsGt (jsIdx qDd i) (.fin 0) &&
    jsGt (jsIdx qDdi i) (.fin 0) && jsGt (jsIdx qDdid i) (.fin 0))

/-- `cleanData`: keep the surviving indices in all four arrays. -/
def cleanData (mbt qDd qDdi qDdid : List JSNum) : CleanedArrays :=
  let valid := validIndices mbt qDd qDdi qDdid
  ⟨valid.map (fun i => jsIdx mbt i), valid.map (fun i => jsIdx qDd i),
   valid.map (fun i => jsIdx qDdi i), valid.map (fun i => jsIdx qDdid i)⟩

/-- `BlasingameCalculationService.calculate`, parameterized by the
interpretation `jln` of `Math.log` used inside the derivative step. -/
def calculate (jln : JSNum → JSNum) (input : BlasingameInput) : BlasingameOutput :=
  let days := datesToDays input.dates
  let materialBalanceTime :=
    calculateMaterialBalanceTime input.rates input.cumulativeProduction
  let pressureDrops :=
    calculatePressureDrops input.pressures input.initialPressure days.length
  let qDd := calculateNormalizedRate input.rates pressureDrops
  let qDdi := calculateRateIntegral materialBalanceTime qDd
  let qDdid := calculateRateIntegralDerivative jln materialBalanceTime qDdi
  let cleaned := cleanData materialBalanceTime qDd qDdi qDdid
  ⟨[], cleaned.materialBalanceTime, cleaned.qDd, cleaned.qDdi, cleaned.qDdid,
   pressureDrops, days, input.rates⟩

/-- The four regime labels. -/
inductive Regime where
  | infiniteActing : Regime
  | transition : Regime
  | boundaryDominated : Regime
  | depletion : Regime
deriving DecidableEq

/-- Confidence levels of `FlowRegimeSegment`. -/
inductive Confidence where
  | low : Confidence
  | medium : Confidence
  | high : Confidence
deriving DecidableEq

/-- `FlowRegimeSegment` from blasingame.model.ts.  `endIndex` is an `Int`
because the source computes it as `slopes.length - 1` in JS arithmetic. -/
structure FlowRegimeSegment where
  regime : Regime
  startIndex : Nat
  endIndex : Int
  diagnosticSlope : JSNum
  confidence : Confidence
deriving DecidableEq

/-- `calculateLogLogSlope`, parameterized by the interpretation `jlog10` of
`Math.log10`.  JS array-write semantics as in `logarithmicDerivative`:
index 0 is always assigned (so an empty input still yields one slope), and
for `n = 1` the final backward write overwrites index 0 using the
out-of-range access at index -1 (NaN). -/
def calculateLogLogSlope (jlog10 : JSNum → JSNum) (x y : List JSNum) : List JSNum :=
  let logX := x.map jlog10
  let logY := y.map jlog10
  let n := x.length
  let fwd := jsDiv (jsSub (jsIdx logY 1) (jsIdx logY 0)) (jsSub (jsIdx logX 1) (jsIdx logX 0))
  let bwd := jsDiv (jsSub (jsIdxInt logY ((n : Int) - 1)) (jsIdxInt logY ((n : Int) - 2)))
      (jsSub (jsIdxInt logX ((n : Int) - 1)) (jsIdxInt logX ((n : Int) - 2)))
  if n = 0 then [fwd]
  else (List.range n).map (fun i =>
    if i = 0 then (if n = 1 then bwd else fwd)
    else if i = n - 1 then bwd
    else jsDiv (jsSub (jsIdx logY (i + 1)) (jsIdx logY (i - 1)))
        (jsSub (jsIdx logX (i + 1)) (jsIdx logX (i - 1))))

/-- The slope-threshold classification chain of `identifyFlowRegimes`
(note the JS comparison semantics: a NaN slope falls through every branch
into `depletion`). -/
def classifySlope (slope : JSNum) : Regime :=
  if jsGt slope (.fin (-3 / 10)) then .infiniteActing
  else if jsGe slope (.fin (-7 / 10)) then .transition
  else if jsGe slope (.fin (-13 / 10)) then .boundaryDominated
  else .depletion

/-- `averageSlope`: arithmetic mean of the finite slopes in
`[start, stop]`, 0 when none is finite. -/
def averageSlope (slopes : List JSNum) (start : Nat) (stop : Int) : JSNum :=
  let idxs := (List.range ((stop + 1 - (start : Int)).toNat)).map (fun k => start + k)
  let finiteVals := (idxs.map (fun i => jsIdx slopes i)).filter jsIsFinite
  if 0 < finiteVals.length then
    jsDiv (finiteVals.foldl jsAdd (.fin 0)) (.fin (finiteVals.length : ℚ))
  else .fin 0

/-- The walk of `identifyFlowRegimes` over `slopes[1..]`; the list argument
is the remaining tail `slopes.drop i`, and a segment is emitted whenever
the classified regime changes, plus a final segment at the end. -/
def regimesGo (slopes : List JSNum) :
    List JSNum → Nat → Regime → Nat → List FlowRegimeSegment
  | [], _, currentRegime, startIndex =>
      [⟨currentRegime, startIndex, (slopes.length : Int) - 1,
        averageSlope slopes startIndex ((slopes.length : Int) - 1), .medium⟩]
  | v :: rest, i, currentRegime, startIndex =>
      let newRegime := classifySlope v
      if newRegime ≠ currentRegime then
        ⟨currentRegime, startIndex, (i : Int) - 1,
          averageSlope slopes startIndex ((i : Int) - 1), .medium⟩
          :: regimesGo slopes rest (i + 1) newRegime i
      else regimesGo slopes rest (i + 1) currentRegime startIndex

/-- `identifyFlowRegimes`, parameterized by the interpretation of
`Math.log10`. -/
def identifyFlowRegimes (jlog10 : JSNum → JSNum)
    (materialBalanceTime qDdid : List JSNum) : List FlowRegimeSegment :=
  let slopes := calculateLogLogSlope jlog10 materialBalanceTime qDdid
  regimesGo slopes (slopes.drop 1) 1 .infiniteActing 0

/- ------------------------------------------------------------------
   type-curve-matching.service.ts
   ------------------------------------------------------------------ -/

/-- The `matchParams` argument of `generateTheoreticalCurves`. -/
structure MatchParams where
  kh : JSNum
  skinFactor : JSNum
  drainageArea : JSNum

/-- `TheoreticalCurves` from type-curve-matching.service.ts. -/
structure TheoreticalCurves where
  teDimensionless : List JSNum
  qDd : List JSNum
  qDdi : List JSNum
  qDdid : List JSNum

/-- `calculateDimensionalTime`: `tD[i] = 0.0002637 * kh * t / drainageArea`
(the intermediate `k = kh / 50` in the source is dead code and feeds
nothing). -/
def calculateDimensionalTime (materialBalanceTime : List JSNum)
    (kh drainageArea : JSNum) : List JSNum :=
  materialBalanceTime.map (fun t =>
    jsDiv (jsMul (jsMul (.fin (2637 / 10000000)) kh) t) drainageArea)

/-- `calculateTheoreticalNormalizedRate`, parameterized by the
interpretations of `Math.exp` and `Math.sqrt`: skin is capped at 5 before
exponentiation, the response is `1/(sqrt(tD) + 0.1*skinEffect)` floored at
`0.01`, and 0 where `tD <= 0`. -/
def calculateTheoreticalNormalizedRate (jexp jsqrt : JSNum → JSNum)
    (tD : List JSNum) (skinFactor : JSNum) : List JSNum :=
  let skinEffect := jexp (jsMin skinFactor (.fin 5))
  tD.map (fun time =>
    if jsLe time (.fin 0) then .fin 0
    else jsMax (jsDiv (.fin 1) (jsAdd (jsqrt time) (jsMul skinEffect (.fin (1 / 10)))))
      (.fin (1 / 100)))

/-- Loop of `calculateTheoreticalIntegral` (same accumulation as the
kernel's trapezoid, but over an array pre-filled with zeros of length
`qDd.length`). -/
def theoIntAux (tD qDd : List JSNum) : Nat → Nat → JSNum → List JSNum
  | 0, _, _ => []
  | rem + 1, i, prev =>
      let dt := jsSub (jsIdx tD i) (jsIdx tD (i - 1))
      let avgRate := jsDiv (jsAdd (jsIdx qDd i) (jsIdx qDd (i - 1))) (.fin 2)
      let v := jsAdd prev (jsMul avgRate dt)
      v :: theoIntAux tD qDd rem (i + 1) v

/-- `calculateTheoreticalIntegral`: cumulative trapezoid of `qDd` over
`tD`; the output has exactly `qDd.length` entries (empty for empty input,
unlike the kernel's `trapezoidalIntegrate`). -/
def calculateTheoreticalIntegral (tD qDd : List JSNum) : List JSNum :=
  match qDd.length with
  | 0 => []
  | len + 1 => .fin 0 :: theoIntAux tD qDd len 1 (.fin 0)

/-- The interior central-difference entry of `calculateTheoreticalDerivative`
(zero outside the interior loop range or when `dt` is not positive). -/
def theoDerivInner (tD qIntegral : List JSNum) (j : Nat) : JSNum :=
  let n := qIntegral.length
  let dt := jsSub (jsIdx tD (j + 1)) (jsIdx tD (j - 1))
  if 1 ≤ j ∧ j < n - 1 ∧ jsGt dt (.fin 0) then
    jsDiv (jsSub (jsIdx qIntegral (j + 1)) (jsIdx qIntegral (j - 1))) dt
  else .fin 0

/-- `calculateTheoreticalDerivative`: central difference in the interior,
and for `n > 1` both endpoints copy their nearest interior neighbour (for
`n = 2` both copies resolve to the initial 0, exactly as the sequential JS
assignments do). -/
def calculateTheoreticalDerivative (tD qIntegral : List JSNum) : List JSNum :=
  let n := qIntegral.length
  (List.range n).map (fun i =>
    if 1 < n ∧ i = 0 then theoDerivInner tD qIntegral 1
    else if 1 < n ∧ i = n - 1 then theoDerivInner tD qIntegral (n - 2)
    else theoDerivInner tD qIntegral i)

/-- `TypeCurveMatchingService.generateTheoreticalCurves`, parameterized by
the interpretations of `Math.exp` and `Math.sqrt`. -/
def generateTheoreticalCurves (jexp jsqrt : JSNum → JSNum)
    (blasingameData : BlasingameOutput) (matchParams : MatchParams) :
    TheoreticalCurves :=
  let dimensionalTime := calculateDimensionalTime blasingameData.materialBalanceTime
    matchParams.kh matchParams.drainageArea
  let theoreticalQNorm := calculateTheoreticalNormalizedRate jexp jsqrt
    dimensionalTime matchParams.skinFactor
  let theoreticalQIntegral := calculateTheoreticalIntegral dimensionalTime theoreticalQNorm
  let theoreticalQDerivative := calculateTheoreticalDerivative dimensionalTime theoreticalQIntegral
  ⟨dimensionalTime, theoreticalQNorm, theoreticalQIntegral, theoreticalQDerivative⟩

/-- `MatchQuality`.  `rSquared` and `mae` are exact rationals; `rmse` is a
real number because the source takes a square root. -/
structure MatchQuality where
  rSquared : ℚ
  rmse : ℝ
  mae : ℚ

/-- The per-pair filter of `calculateMatchQuality`: keep a pair whose two
components are both finite and strictly positive (the survivors are
finite, so they are returned as exact rationals). -/
def validPairOf : JSNum × JSNum → Option (ℚ × ℚ)
  | (.fin c, .fin t) => if 0 < c ∧ 0 < t then some (c, t) else none
  | _ => none

/-- The `validPairs` list of `calculateMatchQuality`: the surviving pairs
`(calculated[i], theoretical[i])` for `i` below `calculated.length`. -/
def validPairs (calculated theoretical : List JSNum) : List (ℚ × ℚ) :=
  ((List.range calculated.length).map
      (fun i => (jsIdx calculated i, jsIdx theoretical i))).filterMap validPairOf

/-- `meanCalculated`: mean of the surviving calculated values (only ever
used by the source when at least one pair survives). -/
def meanCalculated (calculated theoretical : List JSNum) : ℚ :=
  ((validPairs calculated theoretical).foldl (fun s p => s + p.1) 0) /
    ((validPairs calculated theoretical).length : ℚ)

/-- `ssRes`: residual sum of squares over the surviving pairs. -/
def ssRes (calculated theoretical : List JSNum) : ℚ :=
  (validPairs calculated theoretical).foldl
    (fun s p => s + (p.1 - p.2) * (p.1 - p.2)) 0

/-- `ssTot`: total sum of squares of the surviving calculated values about
their mean. -/
def ssTot (calculated theoretical : List JSNum) : ℚ :=
  (validPairs calculated theoretical).foldl
    (fun s p =>
      s + (p.1 - meanCalculated calculated theoretical) *
        (p.1 - meanCalculated calculated theoretical)) 0

/-- `sumAbsError`: sum of absolute residuals over the surviving pairs. -/
def sumAbsError (calculated theoretical : List JSNum) : ℚ :=
  (validPairs calculated theoretical).foldl (fun s p => s + |p.1 - p.2|) 0

/-- The unclamped `rSquared` computed by the source:
`ssTot > 0 ? 1 - ssRes/ssTot : 0`. -/
def rawRSquared (calculated theoretical : List JSNum) : ℚ :=
  if 0 < ssTot calculated theoretical then
    1 - ssRes calculated theoretical / ssTot calculated theoretical
  else 0

/-- `calculateMatchQuality`: early `{0,0,0}` returns for empty inputs or no
surviving pairs, otherwise the clamped R-squared, `sqrt(ssRes/count)` and
`sumAbsError/count`. -/
noncomputable def calculateMatchQuality (calculated theoretical : List JSNum) :
    MatchQuality :=
  if calculated.length = 0 ∨ theoretical.length = 0 then ⟨0, 0, 0⟩
  else if (validPairs calculated theoretical).length = 0 then ⟨0, 0, 0⟩
  else
    ⟨max 0 (min 1 (rawRSquared calculated theoretical)),
     Real.sqrt ((ssRes calculated theoretical : ℝ) /
       ((validPairs calculated theoretical).length : ℝ)),
     sumAbsError calculated theoretical / ((validPairs calculated theoretical).length : ℚ)⟩

/- ------------------------------------------------------------------
   Property-side definitions used by the claims
   ------------------------------------------------------------------ -/

/-- A JS value that survives the cleaning filter: finite and strictly
positive. -/
def jsValid (v : JSNum) : Bool := jsIsFinite v && jsGt v (.fin 0)

/-- `coversRangeB s e segs` states that `segs` tiles the index interval
`[s, e]` exactly: the first segment starts at `s`, each segment is
non-empty and is immediately followed by a segment starting one past its
`endIndex`, and the last segment ends at `e` (an empty list tiles the empty
interval `s = e + 1`).  This is the formal reading of "contiguous,
non-overlapping, in time order, covering exactly `[s, e]`". -/
def coversRangeB : Int → Int → List FlowRegimeSegment → Bool
  | s, e, [] => s == e + 1
  | s, e, seg :: rest =>
      ((seg.startIndex : Int) == s) && decide (s ≤ seg.endIndex) &&
        coversRangeB (seg.endIndex + 1) e rest

/- ------------------------------------------------------------------
   Concrete inputs used by witnesses and counterexamples
   ------------------------------------------------------------------ -/

/-- A table interpretation of `Math.log10` on the powers of ten used by the
concrete regime examples (NaN elsewhere). -/
def log10ish : JSNum → JSNum := fun v =>
  if v = .fin 1 then .fin 0
  else if v = .fin 10 then .fin 1
  else if v = .fin 100 then .fin 2
  else if v = .fin (1 / 10) then .fin (-1)
  else if v = .fin (1 / 100) then .fin (-2)
  else .nan

/-- A two-day input whose pressure series has length 1 (mismatched with the
production series of length 2), with initial pressure 5000 psi. -/
def mismatchedPressureInput : BlasingameInput :=
  ⟨[0, 86400000], [.fin 500, .fin 400], [.fin 500, .fin 900], some [.fin 4000], .fin 5000⟩

/-- A one-point input whose flowing pressure sits 50 psi below the initial
pressure, so the computed drawdown is 50, below the documented 100 psi
minimum. -/
def smallDrawdownInput : BlasingameInput :=
  ⟨[0], [.fin 200], [.fin 200], some [.fin 950], .fin 1000⟩

/-- A Blasingame output with a single material-balance-time point, used to
evaluate the type-curve generator at degenerate match parameters. -/
def onePointOutput : BlasingameOutput :=
  ⟨[], [.fin 1], [], [], [], [], [], []⟩

/-- Match parameters with non-positive drainage area (and zero skin). -/
def zeroAreaParams : MatchParams := ⟨.fin 100, .fin 0, .fin 0⟩

/- ------------------------------------------------------------------
   Supporting lemmas
   ------------------------------------------------------------------ -/

theorem jsIdx_cons_succ (v : JSNum) (l : List JSNum) (n : Nat) :
    jsIdx (v :: l) (n + 1) = jsIdx l n := rfl

theorem datesToDays_length (dates : List ℚ) :
    (datesToDays dates).length = dates.length := by
  cases dates <;> simp [datesToDays]

theorem mbtAux_length (rates cumulative : List JSNum) :
    ∀ (rem i : Nat) (prev : JSNum), (mbtAux rates cumulative rem i prev).length = rem := by
  intro rem
  induction rem with
  | zero => intro i prev; rfl
  | succ rem ih => intro i prev; simp only [mbtAux, List.length_cons, ih]

theorem mbtAux_pos_rate (rates cumulative : List JSNum) :
    ∀ (k rem i : Nat) (prev : JSNum), k < rem →
      jsGt (jsIdx rates (i + k)) (.fin 0) = true →
      jsIdx (mbtAux rates cumulative rem i prev) k =
        jsDiv (jsIdx cumulative (i + k)) (jsIdx rates (i + k)) := by
  intro k
  induction k with
  | zero =>
    intro rem i prev hk hgt
    match rem, hk with
    | rem' + 1, _ =>
      simp only [mbtAux, Nat.add_zero] at hgt ⊢
      simp [jsIdx, hgt]
  | succ k ih =>
    intro rem i prev hk hgt
    match rem, hk with
    | rem' + 1, hk =>
      have hk' : k < rem' := Nat.lt_of_succ_lt_succ hk
      simp only [mbtAux, jsIdx_cons_succ]
      have := ih rem' (i + 1) (if jsGt (jsIdx rates i) (.fin 0) then
        jsDiv (jsIdx cumulative i) (jsIdx rates i) else prev) hk'
      rw [show i + 1 + k = i + (k + 1) by omega] at this
      exact this hgt

theorem mbtAux_nonpos_rate (rates cumulative : List JSNum) :
    ∀ (k rem i : Nat) (prev : JSNum), k < rem →
      jsGt (jsIdx rates (i + k)) (.fin 0) = false →
      jsIdx (mbtAux rates cumulative rem i prev) k =
        (if k = 0 then prev else jsIdx (mbtAux rates cumulative rem i prev) (k - 1)) := by
  intro k
  induction k with
  | zero =>
    intro rem i prev hk hgt
    match rem, hk with
    | rem' + 1, _ =>
      simp only [mbtAux, Nat.add_zero] at hgt ⊢
      simp [jsIdx, hgt]
  | succ k ih =>
    intro rem i prev hk hgt
    match rem, hk with
    | rem' + 1, hk =>
      have hk' : k < rem' := Nat.lt_of_succ_lt_succ hk
      simp only [mbtAux, jsIdx_cons_succ, Nat.succ_ne_zero, if_false, Nat.succ_sub_one]
      have := ih rem' (i + 1) (if jsGt (jsIdx rates i) (.fin 0) then
        jsDiv (jsIdx cumulative i) (jsIdx rates i) else prev) hk'
      rw [show i + 1 + k = i + (k + 1) by omega] at this
      have h2 := this hgt
      rw [h2]
      cases k with
      | zero => simp [mbtAux, jsIdx]
      | succ k'' => simp only [Nat.succ_ne_zero, if_false, jsIdx_cons_succ, Nat.succ_sub_one]

/- ------------------------------------------------------------------
   Claims
   ------------------------------------------------------------------ -/

/-- C1 (code bug evaluation): at a pressure series of matching length with
`initialPressure - pressure[0] = 50`, `calculate` returns a pressure drop
of 50, strictly below the 100 psi minimum that both the claim and the
source's own "Minimum 100 psi drawdown" comment demand: the code keeps any
positive drawdown unchanged and only replaces non-positive drawdowns by
100. -/
theorem c1_pressure_floor_code_eval :
    (calculate (fun _ => .nan) smallDrawdownInput).pressureDrops = [.fin 50] ∧
    jsGt (.fin 100) (.fin 50) = true := by
  constructor
  · with_unfolding_all rfl
  · with_unfolding_all rfl

/-- C3 (confirmed): before cleaning, the material balance time satisfies
`te[i] = cumulative[i]/rates[i]` whenever `rates[i] > 0`; a zero rate at
index `i > 0` carries the previous value forward, and a zero rate at index
0 yields `0.001`.  (`calculateMaterialBalanceTime` is exactly the
pre-cleaning series built inside `calculate`.) -/
theorem c3_material_balance_time (rates cumulative : List JSNum) :
    (calculateMaterialBalanceTime rates cumulative).length = rates.length ∧
    (∀ i, i < rates.length → jsGt (jsIdx rates i) (.fin 0) = true →
      jsIdx (calculateMaterialBalanceTime rates cumulative) i =
        jsDiv (jsIdx cumulative i) (jsIdx rates i)) ∧
    (∀ i, 0 < i → i < rates.length → jsIdx rates i = .fin 0 →
      jsIdx (calculateMaterialBalanceTime rates cumulative) i =
        jsIdx (calculateMaterialBalanceTime rates cumulative) (i - 1)) ∧
    (0 < rates.length → jsIdx rates 0 = .fin 0 →
      jsIdx (calculateMaterialBalanceTime rates cumulative) 0 = .fin (1 / 1000)) := by
  refine ⟨mbtAux_length rates cumulative rates.length 0 _, ?_, ?_, ?_⟩
  · intro i hi hgt
    have := mbtAux_pos_rate rates cumulative i rates.length 0 (.fin (1 / 1000)) hi
    simp only [Nat.zero_add] at this
    exact this hgt
  · intro i hipos hi hz
    have hgt : jsGt (jsIdx rates i) (.fin 0) = false := by rw [hz]; rfl
    have := mbtAux_nonpos_rate rates cumulative i rates.length 0 (.fin (1 / 1000)) hi
    simp only [Nat.zero_add] at this
    have h2 := this hgt
    rw [if_neg (Nat.pos_iff_ne_zero.mp hipos)] at h2
    exact h2
  · intro hlen hz
    have hgt : jsGt (jsIdx rates 0) (.fin 0) = false := by rw [hz]; rfl
    have := mbtAux_nonpos_rate rates cumulative 0 rates.length 0 (.fin (1 / 1000)) hlen
    simp only [Nat.zero_add] at this
    have h2 := this hgt
    rw [if_pos trivial] at h2
    exact h2

/-- Witness for C3 at rates `[0, 2, 0]`, cumulative `[5, 10, 30]`: the
positive-rate index gives `10/2`, the trailing zero rate carries the value
forward, and the leading zero rate gives `0.001`. -/
theorem c3_material_balance_time_witness :
    jsIdx (calculateMaterialBalanceTime [.fin 0, .fin 2, .fin 0] [.fin 5, .fin 10, .fin 30]) 1 =
      jsDiv (.fin 10) (.fin 2) ∧
    jsIdx (calculateMaterialBalanceTime [.fin 0, .fin 2, .fin 0] [.fin 5, .fin 10, .fin 30]) 2 =
      jsIdx (calculateMaterialBalanceTime [.fin 0, .fin 2, .fin 0] [.fin 5, .fin 10, .fin 30]) 1 ∧
    jsIdx (calculateMaterialBalanceTime [.fin 0, .fin 2, .fin 0] [.fin 5, .fin 10, .fin 30]) 0 =
      .fin (1 / 1000) := by
  obtain ⟨-, hpos, hcarry, hzero⟩ :=
    c3_material_balance_time [.fin 0, .fin 2, .fin 0] [.fin 5, .fin 10, .fin 30]
  refine ⟨?_, ?_, ?_⟩
  · exact hpos 1 (by decide) (by with_unfolding_all rfl)
  · exact hcarry 2 (by decide) (by decide) (by with_unfolding_all rfl)
  · exact hzero (by decide) (by with_unfolding_all rfl)

/-- C9 (counterexample): on empty inputs `identifyFlowRegimes` returns one
segment whose `endIndex` is 0, not -1: the JS assignment `slopes[0] = NaN`
grows the empty slope array to length 1, so the final segment ends at
`slopes.length - 1 = 0`. -/
theorem c9_empty_input_cex :
    (identifyFlowRegimes (fun _ => .nan) [] []).map FlowRegimeSegment.endIndex = [0] ∧
    (identifyFlowRegimes (fun _ => .nan) [] []).map FlowRegimeSegment.endIndex ≠ [-1] := by
  constructor
  · rfl
  · intro h
    rw [show (identifyFlowRegimes (fun _ => .nan) [] []).map FlowRegimeSegment.endIndex
      = [0] from rfl] at h
    exact absurd h (by decide)

/-- C9 (amended): for every interpretation of `Math.log10`, empty inputs
yield exactly one segment `infinite-acting` on `[0, 0]` with diagnostic
slope 0 and medium confidence (the single slope entry is NaN, so the
average of finite slopes falls back to 0). -/
theorem c9_empty_input_segment (jlog10 : JSNum → JSNum) :
    identifyFlowRegimes jlog10 [] [] =
      [⟨.infiniteActing, 0, 0, .fin 0, .medium⟩] := rfl

theorem validPairs_self_eq (cal : List JSNum) :
    ∀ p ∈ validPairs cal cal, p.1 = p.2 := by
  intro p hp
  simp only [validPairs, List.mem_filterMap, List.mem_map, List.mem_range] at hp
  obtain ⟨a, ⟨i, hi, ha⟩, hfa⟩ := hp
  subst ha
  cases hv : jsIdx cal i with
  | fin q =>
    rw [hv] at hfa
    simp only [validPairOf] at hfa
    by_cases hq : 0 < q ∧ 0 < q
    · rw [if_pos hq] at hfa
      cases hfa
      rfl
    · rw [if_neg hq] at hfa
      cases hfa
  | nan => rw [hv] at hfa; simp [validPairOf] at hfa
  | inf => rw [hv] at hfa; simp [validPairOf] at hfa
  | neginf => rw [hv] at hfa; simp [validPairOf] at hfa

theorem foldl_sq_self (l : List (ℚ × ℚ)) (h : ∀ p ∈ l, p.1 = p.2) :
    ∀ a : ℚ, l.foldl (fun s p => s + (p.1 - p.2) * (p.1 - p.2)) a = a := by
  induction l with
  | nil => intro a; rfl
  | cons p l ih =>
    intro a
    have hp : p.1 = p.2 := h p (List.mem_cons_self p l)
    have hrest : ∀ q ∈ l, q.1 = q.2 := fun q hq => h q (List.mem_cons_of_mem p hq)
    simp only [List.foldl_cons, hp, sub_self, mul_zero, add_zero]
    exact ih hrest a

theorem foldl_abs_self (l : List (ℚ × ℚ)) (h : ∀ p ∈ l, p.1 = p.2) :
    ∀ a : ℚ, l.foldl (fun s p => s + |p.1 - p.2|) a = a := by
  induction l with
  | nil => intro a; rfl
  | cons p l ih =>
    intro a
    have hp : p.1 = p.2 := h p (List.mem_cons_self p l)
    have hrest : ∀ q ∈ l, q.1 = q.2 := fun q hq => h q (List.mem_cons_of_mem p hq)
    simp only [List.foldl_cons, hp, sub_self, abs_zero, add_zero]
    exact ih hrest a

theorem ssTot_of_no_pairs (cal th : List JSNum) (h : validPairs cal th = []) :
    ssTot cal th = 0 := by
  simp [ssTot, h]

theorem validPairs_of_nil_left (cal th : List JSNum) (h : cal.length = 0) :
    validPairs cal th = [] := by
  simp [validPairs, h]

/-- C10 (confirmed): with an empty input array, or when no index survives
the finite-and-positive pair filter, `calculateMatchQuality` returns
exactly `{rSquared := 0, rmse := 0, mae := 0}`. -/
theorem c10_degenerate_match_quality (calculated theoretical : List JSNum)
    (h : calculated = [] ∨ theoretical = [] ∨ validPairs calculated theoretical = []) :
    calculateMatchQuality calculated theoretical = ⟨0, 0, 0⟩ := by
  rcases h with h | h | h
  · subst h; simp [calculateMatchQuality]
  · subst h; simp [calculateMatchQuality]
  · unfold calculateMatchQuality
    rw [h]
    simp

/-- Witness for C10 at `calculated = [NaN, -1]`, `theoretical = [2, 3]`:
no pair survives the filter and the result is exactly `{0, 0, 0}`. -/
theorem c10_degenerate_match_quality_witness :
    calculateMatchQuality [.nan, .fin (-1)] [.fin 2, .fin 3] = ⟨0, 0, 0⟩ :=
  c10_degenerate_match_quality _ _ (Or.inr (Or.inr (by with_unfolding_all rfl)))

/-- C8 (confirmed): the reported `rSquared` always lies in `[0, 1]`, and
whenever the unclamped value `rawRSquared` is negative the reported value
is exactly 0. -/
theorem c8_rsquared_clamped :
    (∀ calculated theoretical : List JSNum,
      0 ≤ (calculateMatchQuality calculated theoretical).rSquared ∧
      (calculateMatchQuality calculated theoretical).rSquared ≤ 1) ∧
    (∀ calculated theoretical : List JSNum,
      rawRSquared calculated theoretical < 0 →
      (calculateMatchQuality calculated theoretical).rSquared = 0) := by
  constructor
  · intro calculated theoretical
    unfold calculateMatchQuality
    split_ifs
    · exact ⟨le_refl 0, by norm_num⟩
    · exact ⟨le_refl 0, by norm_num⟩
    · exact ⟨le_max_left 0 _, max_le (by norm_num) (min_le_left 1 _)⟩
  · intro calculated theoretical h
    unfold calculateMatchQuality
    split_ifs
    · rfl
    · rfl
    · show max 0 (min 1 (rawRSquared calculated theoretical)) = 0
      rw [min_eq_right (le_of_lt (lt_of_lt_of_le h zero_le_one))]
      exact max_eq_left (le_of_lt h)

/-- Witness for C8 at the anti-correlated input `calculated = [1, 3]`,
`theoretical = [3, 1]`: the raw R-squared is negative (it equals -3) and
the reported value is exactly 0. -/
theorem c8_rsquared_clamped_witness :
    rawRSquared [.fin 1, .fin 3] [.fin 3, .fin 1] < 0 ∧
    (calculateMatchQuality [.fin 1, .fin 3] [.fin 3, .fin 1]).rSquared = 0 := by
  have h : rawRSquared [.fin 1, .fin 3] [.fin 3, .fin 1] < 0 :=
    of_decide_eq_true (by with_unfolding_all rfl)
  exact ⟨h, c8_rsquared_clamped.2 _ _ h⟩

/-- C7 (counterexample): the perfect match `calculated = theoretical =
[5, 5]` has surviving pairs, yet its reported `rSquared` is 0, not 1,
because the surviving calculated values have zero variance and the source
takes the `SStot == 0` branch — contradicting the claim's demand that
every perfect match with a surviving pair yields `rSquared = 1`. -/
theorem c7_perfect_match_cex :
    validPairs [.fin 5, .fin 5] [.fin 5, .fin 5] ≠ [] ∧
    (calculateMatchQuality [.fin 5, .fin 5] [.fin 5, .fin 5]).rSquared = 0 ∧
    (calculateMatchQuality [.fin 5, .fin 5] [.fin 5, .fin 5]).rSquared ≠ 1 := by
  refine ⟨?_, ?_, ?_⟩
  · intro h
    have : (validPairs [.fin 5, .fin 5] [.fin 5, .fin 5]).length = 0 := by rw [h]; rfl
    rw [show (validPairs [.fin 5, .fin 5] [.fin 5, .fin 5]).length = 2 from
      by with_unfolding_all rfl] at this
    exact absurd this (by decide)
  · with_unfolding_all rfl
  · rw [show (calculateMatchQuality [.fin 5, .fin 5] [.fin 5, .fin 5]).rSquared = 0 from
      by with_unfolding_all rfl]
    norm_num

/-- C7 (amended): a perfect match (`theoretical = calculated` elementwise)
whose surviving calculated values have positive variance (`SStot > 0`)
yields `rSquared = 1`, `rmse = 0` and `mae = 0`; and for every input with
`SStot = 0` (in particular a zero-variance perfect match) the reported
`rSquared` is 0 rather than NaN or a division error. -/
theorem c7_match_quality_boundaries :
    (∀ calculated : List JSNum, 0 < ssTot calculated calculated →
      (calculateMatchQuality calculated calculated).rSquared = 1 ∧
      (calculateMatchQuality calculated calculated).rmse = 0 ∧
      (calculateMatchQuality calculated calculated).mae = 0) ∧
    (∀ calculated theoretical : List JSNum, ssTot calculated theoretical = 0 →
      (calculateMatchQuality calculated theoretical).rSquared = 0) := by
  constructor
  · intro calculated hpos
    have hne : validPairs calculated calculated ≠ [] := by
      intro h
      rw [ssTot_of_no_pairs _ _ h] at hpos
      exact absurd hpos (lt_irrefl 0)
    have hcal : ¬ calculated.length = 0 := by
      intro h
      exact hne (validPairs_of_nil_left _ _ h)
    have hlen : ¬ (validPairs calculated calculated).length = 0 := by
      intro h
      exact hne (List.length_eq_zero.mp h)
    have hres : ssRes calculated calculated = 0 :=
      foldl_sq_self _ (validPairs_self_eq calculated) 0
    have habs : sumAbsError calculated calculated = 0 :=
      foldl_abs_self _ (validPairs_self_eq calculated) 0
    unfold calculateMatchQuality
    rw [if_neg (by simp [hcal]), if_neg hlen]
    refine ⟨?_, ?_, ?_⟩
    · show max 0 (min 1 (rawRSquared calculated calculated)) = 1
      unfold rawRSquared
      rw [if_pos hpos, hres]
      norm_num
    · show Real.sqrt (((ssRes calculated calculated : ℚ) : ℝ) /
        ((validPairs calculated calculated).length : ℝ)) = 0
      rw [hres]
      simp
    · show sumAbsError calculated calculated /
        ((validPairs calculated calculated).length : ℚ) = 0
      rw [habs]
      simp
  · intro calculated theoretical h
    unfold calculateMatchQuality
    split_ifs
    · rfl
    · rfl
    · show max 0 (min 1 (rawRSquared calculated theoretical)) = 0
      unfold rawRSquared
      rw [if_neg (by rw [h]; exact lt_irrefl 0)]
      norm_num

/-- Witness for C7: the perfect match `[1, 2]` vs `[1, 2]` has positive
variance and scores `rSquared = 1`, `rmse = 0`, `mae = 0`; the
zero-variance input `[5, 5]` vs `[5, 5]` has `SStot = 0` and scores
`rSquared = 0`. -/
theorem c7_match_quality_boundaries_witness :
    0 < ssTot [.fin 1, .fin 2] [.fin 1, .fin 2] ∧
    (calculateMatchQuality [.fin 1, .fin 2] [.fin 1, .fin 2]).rSquared = 1 ∧
    (calculateMatchQuality [.fin 1, .fin 2] [.fin 1, .fin 2]).rmse = 0 ∧
    (calculateMatchQuality [.fin 1, .fin 2] [.fin 1, .fin 2]).mae = 0 ∧
    ssTot [.fin 5, .fin 5] [.fin 5, .fin 5] = 0 ∧
    (calculateMatchQuality [.fin 5, .fin 5] [.fin 5, .fin 5]).rSquared = 0 := by
  have h1 : 0 < ssTot [.fin 1, .fin 2] [.fin 1, .fin 2] :=
    of_decide_eq_true (by with_unfolding_all rfl)
  have h2 : ssTot [.fin 5, .fin 5] [.fin 5, .fin 5] = 0 := by with_unfolding_all rfl
  obtain ⟨ha, hb, hc⟩ := c7_match_quality_boundaries.1 _ h1
  exact ⟨h1, ha, hb, hc, h2, c7_match_quality_boundaries.2 _ _ h2⟩

theorem mem_validIndices (mbt qDd qDdi qDdid : List JSNum) (i : Nat)
    (h : i ∈ validIndices mbt qDd qDdi qDdid) :
    jsValid (jsIdx mbt i) = true ∧ jsValid (jsIdx qDd i) = true ∧
    jsValid (jsIdx qDdi i) = true ∧ jsValid (jsIdx qDdid i) = true := by
  rw [validIndices, List.mem_filter] at h
  have h2 := h.2
  simp only [Bool.and_eq_true] at h2
  obtain ⟨⟨⟨⟨⟨⟨⟨f1, f2⟩, f3⟩, f4⟩, g1⟩, g2⟩, g3⟩, g4⟩ := h2
  refine ⟨?_, ?_, ?_, ?_⟩ <;> simp [jsValid, f1, f2, f3, f4, g1, g2, g3, g4]

theorem cleanData_invariant (mbt qDd qDdi qDdid : List JSNum) :
    ((cleanData mbt qDd qDdi qDdid).materialBalanceTime.length =
        (cleanData mbt qDd qDdi qDdid).qDd.length ∧
      (cleanData mbt qDd qDdi qDdid).qDd.length =
        (cleanData mbt qDd qDdi qDdid).qDdi.length ∧
      (cleanData mbt qDd qDdi qDdid).qDdi.length =
        (cleanData mbt qDd qDdi qDdid).qDdid.length) ∧
    ((cleanData mbt qDd qDdi qDdid).materialBalanceTime.all jsValid = true ∧
      (cleanData mbt qDd qDdi qDdid).qDd.all jsValid = true ∧
      (cleanData mbt qDd qDdi qDdid).qDdi.all jsValid = true ∧
      (cleanData mbt qDd qDdi qDdid).qDdid.all jsValid = true) := by
  constructor
  · simp [cleanData]
  · refine ⟨?_, ?_, ?_, ?_⟩ <;>
    · rw [List.all_eq_true]
      intro v hv
      rw [cleanData] at hv
      simp only [List.mem_map] at hv
      obtain ⟨i, hi, hval⟩ := hv
      subst hval
      have := mem_validIndices mbt qDd qDdi qDdid i hi
      tauto

/-- C4 (confirmed): the four cleaned arrays returned by `calculate` always
have equal length, and every element of each of them is finite and
strictly positive (`jsValid`), for every input and every interpretation of
`Math.log`. -/
theorem c4_cleaned_parallel_invariant (jln : JSNum → JSNum) (input : BlasingameInput) :
    ((calculate jln input).materialBalanceTime.length = (calculate jln input).qDd.length ∧
      (calculate jln input).qDd.length = (calculate jln input).qDdi.length ∧
      (calculate jln input).qDdi.length = (calculate jln input).qDdid.length) ∧
    ((calculate jln input).materialBalanceTime.all jsValid = true ∧
      (calculate jln input).qDd.all jsValid = true ∧
      (calculate jln input).qDdi.all jsValid = true ∧
      (calculate jln input).qDdid.all jsValid = true) :=
  cleanData_invariant _ _ _ _

theorem theoIntAux_length (tD qDd : List JSNum) :
    ∀ (rem i : Nat) (prev : JSNum), (theoIntAux tD qDd rem i prev).length = rem := by
  intro rem
  induction rem with
  | zero => intro i prev; rfl
  | succ rem ih => intro i prev; simp only [theoIntAux, List.length_cons, ih]

theorem calculateTheoreticalIntegral_length (tD qDd : List JSNum) :
    (calculateTheoreticalIntegral tD qDd).length = qDd.length := by
  unfold calculateTheoreticalIntegral
  cases h : qDd.length with
  | zero => rfl
  | succ n => simp [theoIntAux_length]

/-- C2 (amended): neither function validates or throws.  `calculate`
silently coerces an absent or length-mismatched pressure series into the
constant fallback `0.35 * initialPressure`, and `generateTheoreticalCurves`
returns a fully shaped result (all four curves as long as
`materialBalanceTime`) for every parameter triple, including non-positive
`kh` and `drainageArea`. -/
theorem c2_no_validation :
    (∀ (jln : JSNum → JSNum) (input : BlasingameInput),
      (∀ ps, input.pressures = some ps → ps.length ≠ input.dates.length) →
      (calculate jln input).pressureDrops =
        List.replicate input.dates.length (jsMul input.initialPressure (.fin (35 / 100)))) ∧
    (∀ (jexp jsqrt : JSNum → JSNum) (bd : BlasingameOutput) (mp : MatchParams),
      (generateTheoreticalCurves jexp jsqrt bd mp).teDimensionless.length =
        bd.materialBalanceTime.length ∧
      (generateTheoreticalCurves jexp jsqrt bd mp).qDd.length =
        bd.materialBalanceTime.length ∧
      (generateTheoreticalCurves jexp jsqrt bd mp).qDdi.length =
        bd.materialBalanceTime.length ∧
      (generateTheoreticalCurves jexp jsqrt bd mp).qDdid.length =
        bd.materialBalanceTime.length) := by
  constructor
  · intro jln input h
    show calculatePressureDrops input.pressures input.initialPressure
      (datesToDays input.dates).length = _
    cases hp : input.pressures with
    | none => simp [calculatePressureDrops, datesToDays_length]
    | some ps =>
      have hne : ps.length ≠ input.dates.length := h ps hp
      rw [calculatePressureDrops]
      rw [if_neg (by rw [datesToDays_length]; exact hne)]
      rw [datesToDays_length]
  · intro jexp jsqrt bd mp
    have h1 : (generateTheoreticalCurves jexp jsqrt bd mp).teDimensionless.length =
        bd.materialBalanceTime.length := by
      simp [generateTheoreticalCurves, calculateDimensionalTime]
    have h2 : (generateTheoreticalCurves jexp jsqrt bd mp).qDd.length =
        bd.materialBalanceTime.length := by
      simp [generateTheoreticalCurves, calculateTheoreticalNormalizedRate,
        calculateDimensionalTime]
    have h3 : (generateTheoreticalCurves jexp jsqrt bd mp).qDdi.length =
        bd.materialBalanceTime.length := by
      show (calculateTheoreticalIntegral _ _).length = _
      rw [calculateTheoreticalIntegral_length]
      simp [calculateTheoreticalNormalizedRate, calculateDimensionalTime]
    have h4 : (generateTheoreticalCurves jexp jsqrt bd mp).qDdid.length =
        bd.materialBalanceTime.length := by
      show (calculateTheoreticalDerivative _ _).length = _
      rw [calculateTheoreticalDerivative]
      simp only [List.length_map, List.length_range]
      rw [calculateTheoreticalIntegral_length]
      simp [calculateTheoreticalNormalizedRate, calculateDimensionalTime]
    exact ⟨h1, h2, h3, h4⟩

/-- C2 (counterexample): a mismatched pressure series (length 1 against a
production series of length 2) is not rejected: `calculate` returns a
normal result whose pressure drops are the silently coerced constant
fallback `0.35 * 5000 = 1750`; and `generateTheoreticalCurves` with
`drainageArea = 0` returns a curve (containing Infinity) instead of
raising. -/
theorem c2_silent_coercion_cex :
    mismatchedPressureInput.pressures = some [.fin 4000] ∧
    mismatchedPressureInput.dates.length = 2 ∧
    (calculate (fun _ => .nan) mismatchedPressureInput).pressureDrops =
      [.fin 1750, .fin 1750] ∧
    (generateTheoreticalCurves (fun _ => .nan) (fun _ => .nan)
      onePointOutput zeroAreaParams).teDimensionless = [.inf] := by
  refine ⟨rfl, rfl, ?_, ?_⟩
  · with_unfolding_all rfl
  · with_unfolding_all rfl

/-- Witness for C2: the amended theorem applied to the concrete mismatched
input and to the concrete zero-drainage-area parameters. -/
theorem c2_no_validation_witness :
    (calculate (fun _ => .nan) mismatchedPressureInput).pressureDrops =
      List.replicate mismatchedPressureInput.dates.length
        (jsMul mismatchedPressureInput.initialPressure (.fin (35 / 100))) ∧
    (generateTheoreticalCurves (fun _ => .nan) (fun _ => .nan)
      onePointOutput zeroAreaParams).qDd.length =
      onePointOutput.materialBalanceTime.length := by
  constructor
  · refine c2_no_validation.1 _ mismatchedPressureInput ?_
    intro ps hps
    have hps' : [JSNum.fin 4000] = ps := by
      have h0 : mismatchedPressureInput.pressures = some [.fin 4000] := rfl
      rw [h0] at hps
      exact Option.some.inj hps
    rw [← hps']
    decide
  · exact (c2_no_validation.2 _ _ onePointOutput zeroAreaParams).2.1

theorem drop_cons_parts (l : List JSNum) :
    ∀ (i : Nat) (v : JSNum) (rest : List JSNum),
      l.drop i = v :: rest → i < l.length ∧ jsIdx l i = v ∧ l.drop (i + 1) = rest := by
  induction l with
  | nil => intro i v rest h; rw [List.drop_nil] at h; cases h
  | cons a l ih =>
    intro i v rest h
    cases i with
    | zero =>
      rw [List.drop_zero] at h
      cases h
      exact ⟨Nat.succ_pos _, rfl, rfl⟩
    | succ i =>
      rw [List.drop_succ_cons] at h
      obtain ⟨h1, h2, h3⟩ := ih i v rest h
      exact ⟨Nat.succ_lt_succ h1, h2, h3⟩

theorem calculateLogLogSlope_length (jlog10 : JSNum → JSNum) (x y : List JSNum) :
    (calculateLogLogSlope jlog10 x y).length = if x.length = 0 then 1 else x.length := by
  unfold calculateLogLogSlope
  by_cases h : x.length = 0 <;> simp [h]

theorem regimesGo_ne_nil (slopes : List JSNum) (rest : List JSNum) :
    ∀ (i : Nat) (c : Regime) (s : Nat), regimesGo slopes rest i c s ≠ [] := by
  induction rest with
  | nil => intro i c s; simp [regimesGo]
  | cons v rest ih =>
    intro i c s
    simp only [regimesGo]
    by_cases hr : classifySlope v ≠ c
    · rw [if_pos hr]; simp
    · rw [if_neg hr]; exact ih (i + 1) c s

theorem regimesGo_covers (slopes : List JSNum) (rest : List JSNum) :
    ∀ (i : Nat) (c : Regime) (s : Nat),
      slopes.drop i = rest → (s : Int) < i → i ≤ slopes.length →
      coversRangeB s ((slopes.length : Int) - 1) (regimesGo slopes rest i c s) = true := by
  induction rest with
  | nil =>
    intro i c s hdrop hsi hilen
    have hL : slopes.length ≤ i := by
      by_contra hlt
      push_neg at hlt
      rw [List.drop_eq_nil_iff] at hdrop
      exact absurd hdrop (by omega)
    simp only [regimesGo, coversRangeB, Bool.and_eq_true, beq_iff_eq, decide_eq_true_eq]
    refine ⟨⟨trivial, by omega⟩, by simp⟩
  | cons v rest ih =>
    intro i c s hdrop hsi hilen
    obtain ⟨hlt, hv, hrest⟩ := drop_cons_parts slopes i v rest hdrop
    simp only [regimesGo]
    by_cases hr : classifySlope v ≠ c
    · rw [if_pos hr]
      rw [coversRangeB]
      simp only [Bool.and_eq_true, beq_iff_eq, decide_eq_true_eq]
      refine ⟨⟨trivial, by omega⟩, ?_⟩
      have heq : (i : Int) - 1 + 1 = ((i : Nat) : Int) := by omega
      rw [heq]
      exact ih (i + 1) (classifySlope v) i hrest (by omega) (by omega)
    · rw [if_neg hr]
      exact ih (i + 1) c s hrest (by omega) (by omega)

/-- C6 (confirmed): for a non-empty input series, `identifyFlowRegimes`
returns a non-empty segment list that tiles the index interval
`[0, M - 1]` exactly: contiguous, non-overlapping, in time order, with
every index in exactly one segment. -/
theorem c6_segments_cover (jlog10 : JSNum → JSNum) (x y : List JSNum) (h : x ≠ []) :
    identifyFlowRegimes jlog10 x y ≠ [] ∧
    coversRangeB 0 ((x.length : Int) - 1) (identifyFlowRegimes jlog10 x y) = true := by
  have hx : ¬ x.length = 0 := by simpa [List.length_eq_zero] using h
  have hlen : (calculateLogLogSlope jlog10 x y).length = x.length := by
    rw [calculateLogLogSlope_length, if_neg hx]
  constructor
  · exact regimesGo_ne_nil _ _ 1 .infiniteActing 0
  · have hcov := regimesGo_covers (calculateLogLogSlope jlog10 x y)
      ((calculateLogLogSlope jlog10 x y).drop 1) 1 .infiniteActing 0 rfl
      (by decide) (by omega)
    rw [hlen] at hcov
    exact hcov

/-- Witness for C6 at the two-point input `[1, 2]` (with the all-NaN
interpretation of `Math.log10`): the segments tile `[0, 1]`. -/
theorem c6_segments_cover_witness :
    identifyFlowRegimes (fun _ => .nan) [.fin 1, .fin 2] [.fin 1, .fin 2] ≠ [] ∧
    coversRangeB 0 (([JSNum.fin 1, JSNum.fin 2].length : Int) - 1)
      (identifyFlowRegimes (fun _ => .nan) [.fin 1, .fin 2] [.fin 1, .fin 2]) = true :=
  c6_segments_cover (fun _ => .nan) [.fin 1, .fin 2] [.fin 1, .fin 2] (by decide)

theorem regimesGo_regime_pointwise (slopes : List JSNum) (rest : List JSNum) :
    ∀ (i : Nat) (c : Regime) (s : Nat),
      slopes.drop i = rest →
      (∀ j, s ≤ j → j < i → 1 ≤ j → classifySlope (jsIdx slopes j) = c) →
      ∀ seg ∈ regimesGo slopes rest i c s, ∀ j : Nat,
        seg.startIndex ≤ j → (j : Int) ≤ seg.endIndex → 1 ≤ j →
        classifySlope (jsIdx slopes j) = seg.regime := by
  induction rest with
  | nil =>
    intro i c s hdrop hinv seg hseg j hj1 hj2 hj3
    simp only [regimesGo, List.mem_singleton] at hseg
    subst hseg
    have hL : slopes.length ≤ i := by rwa [List.drop_eq_nil_iff] at hdrop
    have hj2' : (j : Int) ≤ (slopes.length : Int) - 1 := hj2
    exact hinv j hj1 (by omega) hj3
  | cons v rest ih =>
    intro i c s hdrop hinv seg hseg j hj1 hj2 hj3
    obtain ⟨hlt, hv, hrest⟩ := drop_cons_parts slopes i v rest hdrop
    simp only [regimesGo] at hseg
    by_cases hr : classifySlope v ≠ c
    · rw [if_pos hr] at hseg
      rcases List.mem_cons.mp hseg with hhd | htl
      · subst hhd
        have hj2' : (j : Int) ≤ (i : Int) - 1 := hj2
        exact hinv j hj1 (by omega) hj3
      · refine ih (i + 1) (classifySlope v) i hrest ?_ seg htl j hj1 hj2 hj3
        intro j' hj'1 hj'2 _
        have : j' = i := by omega
        rw [this, hv]
    · rw [if_neg hr] at hseg
      push_neg at hr
      refine ih (i + 1) c s hrest ?_ seg hseg j hj1 hj2 hj3
      intro j' hj'1 hj'2 hj'3
      by_cases hji : j' = i
      · rw [hji, hv, hr]
      · exact hinv j' hj'1 (by omega) hj'3

theorem regimesGo_start_zero (slopes : List JSNum) (rest : List JSNum) :
    ∀ (i : Nat) (c : Regime) (s : Nat), 1 ≤ i → (s = 0 → c = .infiniteActing) →
      ∀ seg ∈ regimesGo slopes rest i c s, seg.startIndex = 0 →
        seg.regime = .infiniteActing := by
  induction rest with
  | nil =>
    intro i c s hi h0 seg hseg hstart
    simp only [regimesGo, List.mem_singleton] at hseg
    subst hseg
    exact h0 hstart
  | cons v rest ih =>
    intro i c s hi h0 seg hseg hstart
    simp only [regimesGo] at hseg
    by_cases hr : classifySlope v ≠ c
    · rw [if_pos hr] at hseg
      rcases List.mem_cons.mp hseg with hhd | htl
      · subst hhd
        exact h0 hstart
      · exact ih (i + 1) (classifySlope v) i (by omega)
          (fun hz => absurd hz (by omega)) seg htl hstart
    · rw [if_neg hr] at hseg
      exact ih (i + 1) c s (by omega) h0 seg hseg hstart

/-- C5 (amended): every segment returned by `identifyFlowRegimes` carries,
at every index `j ≥ 1` it contains, exactly the regime obtained by
applying the slope thresholds (`classifySlope`) to the point-wise log-log
slope at `j` itself; but the segment containing index 0 always carries the
walk's initial regime `infinite-acting`, regardless of the slope at index
0, because the walk starts at index 1. -/
theorem c5_segment_regime (jlog10 : JSNum → JSNum) (x y : List JSNum) :
    (∀ seg ∈ identifyFlowRegimes jlog10 x y, ∀ j : Nat,
      seg.startIndex ≤ j → (j : Int) ≤ seg.endIndex → 1 ≤ j →
      classifySlope (jsIdx (calculateLogLogSlope jlog10 x y) j) = seg.regime) ∧
    (∀ seg ∈ identifyFlowRegimes jlog10 x y, seg.startIndex = 0 →
      seg.regime = .infiniteActing) := by
  constructor
  · intro seg hseg j hj1 hj2 hj3
    refine regimesGo_regime_pointwise (calculateLogLogSlope jlog10 x y) _ 1
      .infiniteActing 0 rfl ?_ seg hseg j hj1 hj2 hj3
    intro j' _ hj'2 hj'3
    exact absurd hj'2 (by omega)
  · intro seg hseg h0
    exact regimesGo_start_zero (calculateLogLogSlope jlog10 x y) _ 1
      .infiniteActing 0 (le_refl 1) (fun _ => rfl) seg hseg h0

/-- C5 (counterexample): on `x = [1, 10, 100]`, `y = [1, 0.1, 0.01]` (with
`Math.log10` interpreted by the table `log10ish`), every point-wise slope
is -1, so the thresholds classify index 0 as `boundary-dominated`; yet the
segment containing index 0 is `[0, 0]` tagged `infinite-acting` — the walk
never consults the slope at index 0. -/
theorem c5_pointwise_regime_cex :
    identifyFlowRegimes log10ish [.fin 1, .fin 10, .fin 100]
        [.fin 1, .fin (1 / 10), .fin (1 / 100)] =
      [⟨.infiniteActing, 0, 0, .fin (-1), .medium⟩,
       ⟨.boundaryDominated, 1, 2, .fin (-1), .medium⟩] ∧
    classifySlope (jsIdx (calculateLogLogSlope log10ish [.fin 1, .fin 10, .fin 100]
      [.fin 1, .fin (1 / 10), .fin (1 / 100)]) 0) = .boundaryDominated ∧
    Regime.infiniteActing ≠ Regime.boundaryDominated := by
  refine ⟨?_, ?_, by decide⟩
  · with_unfolding_all rfl
  · with_unfolding_all rfl

/-- Witness for C5 on the same concrete input: the amended theorem applied
to the second segment at the interior index 1, and to the first segment
(whose `startIndex` is 0). -/
theorem c5_segment_regime_witness :
    classifySlope (jsIdx (calculateLogLogSlope log10ish [.fin 1, .fin 10, .fin 100]
        [.fin 1, .fin (1 / 10), .fin (1 / 100)]) 1) =
      (⟨.boundaryDominated, 1, 2, .fin (-1), .medium⟩ : FlowRegimeSegment).regime ∧
    (⟨.infiniteActing, 0, 0, .fin (-1), .medium⟩ : FlowRegimeSegment).regime =
      .infiniteActing := by
  have hlist : identifyFlowRegimes log10ish [.fin 1, .fin 10, .fin 100]
      [.fin 1, .fin (1 / 10), .fin (1 / 100)] =
      [⟨.infiniteActing, 0, 0, .fin (-1), .medium⟩,
       ⟨.boundaryDominated, 1, 2, .fin (-1), .medium⟩] := by
    with_unfolding_all rfl
  have hmem2 : (⟨.boundaryDominated, 1, 2, .fin (-1), .medium⟩ : FlowRegimeSegment) ∈
      identifyFlowRegimes log10ish [.fin 1, .fin 10, .fin 100]
        [.fin 1, .fin (1 / 10), .fin (1 / 100)] := by
    rw [hlist]
    exact List.mem_cons_of_mem _ (List.mem_cons_self _ _)
  have hmem1 : (⟨.infiniteActing, 0, 0, .fin (-1), .medium⟩ : FlowRegimeSegment) ∈
      identifyFlowRegimes log10ish [.fin 1, .fin 10, .fin 100]
        [.fin 1, .fin (1 / 10), .fin (1 / 100)] := by
    rw [hlist]
    exact List.mem_cons_self _ _
  constructor
  · exact (c5_segment_regime log10ish _ _).1 _ hmem2 1 (by decide) (by decide) (by decide)
  · exact (c5_segment_regime log10ish _ _).2 _ hmem1 rfl

end RTA
